import Mathlib

/-!
Verification of the budget_app backend (FastAPI + MongoDB) against its
natural-language specification.

The embedding below translates the Python sources under `backend/app/`:
`models.py` (pydantic data model), `auth.py` (register/login routes),
`security.py` (password hashing and the auth guard `get_current_user`) and
`transactions.py` (create/list/get/delete/balance routes).

Modelling conventions:
* MongoDB collections are lists of typed documents (`List UserInDB`,
  `List TransactionInDB`); `find_one`/`find` scan in natural order, which
  models Mongo's behaviour on these unindexed collections.
* datetimes are `Int` timestamps; monetary amounts are exact rationals
  (`Rat`) — IEEE-754 rounding of `float` amounts is outside the scope of
  the claims settled here.
* Non-deterministic inputs of a request (fresh UUID, current time, the
  bcrypt salt) are explicit parameters.
* Strings are manipulated through their `List Char` data so that every
  definition evaluates by kernel reduction.
-/

namespace BudgetApp

/-- Transaction type enumeration (`models.TransactionType`). -/
inductive TransactionType
  | income
  | expense
deriving DecidableEq, Repr

/-- JSON value of a `TransactionType` (the Python enum `.value`). -/
def TransactionType.value : TransactionType → String
  | .income => "income"
  | .expense => "expense"

/-- Transaction category enumeration (`models.TransactionCategory`). -/
inductive TransactionCategory
  | salary
  | freelance
  | investment
  | other_income
  | housing
  | transportation
  | food
  | utilities
  | healthcare
  | entertainment
  | shopping
  | other_expense
deriving DecidableEq, Repr

/-- JSON value of a `TransactionCategory` (the Python enum `.value`). -/
def TransactionCategory.value : TransactionCategory → String
  | .salary => "salary"
  | .freelance => "freelance"
  | .investment => "investment"
  | .other_income => "other_income"
  | .housing => "housing"
  | .transportation => "transportation"
  | .food => "food"
  | .utilities => "utilities"
  | .healthcare => "healthcare"
  | .entertainment => "entertainment"
  | .shopping => "shopping"
  | .other_expense => "other_expense"

/-- User document as stored in the `users` collection (`models.UserInDB`,
serialized with `model_dump(mode="json")`; `public_id` is the canonical
string form of the UUID). -/
structure UserInDB where
  public_id : String
  email : String
  full_name : String
  hashed_password : String
  created_at : Int
  updated_at : Int
  deleted_at : Option Int
  is_active : Bool
deriving DecidableEq, Repr

/-- Transaction document as stored in the `transactions` collection
(`models.TransactionInDB`). -/
structure TransactionInDB where
  public_id : String
  user_public_id : String
  type : TransactionType
  category : TransactionCategory
  amount : Rat
  description : String
  date : Int
  created_at : Int
  updated_at : Int
  deleted_at : Option Int
deriving DecidableEq, Repr

/-- Public user view (`models.UserResponse`): exactly the four public
fields, no password-derived data. -/
structure UserResponse where
  public_id : String
  email : String
  full_name : String
  created_at : Int
deriving DecidableEq, Repr

/-- Transaction view returned by the transaction routes
(`models.TransactionResponse`). -/
structure TransactionResponse where
  public_id : String
  type : TransactionType
  category : TransactionCategory
  amount : Rat
  description : String
  date : Int
  created_at : Int
deriving DecidableEq, Repr

/-- Balance view (`models.BalanceResponse`). -/
structure BalanceResponse where
  total_income : Rat
  total_expenses : Rat
  current_balance : Rat
  transaction_count : Nat
deriving DecidableEq, Repr

/-- Mongo filter used by every transaction read/aggregate:
`{"user_public_id": uid, "deleted_at": None}` — owner scoping plus the
soft-delete filter. -/
def txnMatches (uid : String) (t : TransactionInDB) : Bool :=
  t.user_public_id == uid && t.deleted_at == none

/-- Response mapping used by the transaction routes: the seven
`TransactionResponse` fields copied from the stored document. -/
def toResponse (t : TransactionInDB) : TransactionResponse :=
  { public_id := t.public_id
    type := t.type
    category := t.category
    amount := t.amount
    description := t.description
    date := t.date
    created_at := t.created_at }

/-! ### Balance aggregation (`transactions.get_balance`) -/

/-- One output document of the `$group` stage of the balance pipeline:
`{"_id": "$type", "total": {"$sum": "$amount"}, "count": {"$sum": 1}}`. -/
structure GroupDoc where
  key : TransactionType
  total : Rat
  count : Nat
deriving DecidableEq, Repr

/-- The `$group` stage applied to the `$match`-ed documents: one result
document per transaction type that actually occurs, carrying the sum of
amounts and the document count of that group.  A type with no documents
produces no group (the handler defaults its total to 0). -/
def groupByType (matched : List TransactionInDB) : List GroupDoc :=
  let incomes := matched.filter (fun t => t.type == TransactionType.income)
  let expenses := matched.filter (fun t => t.type == TransactionType.expense)
  (if incomes.isEmpty then []
   else [{ key := .income, total := (incomes.map (·.amount)).sum, count := incomes.length }]) ++
  (if expenses.isEmpty then []
   else [{ key := .expense, total := (expenses.map (·.amount)).sum, count := expenses.length }])

/-- The Python loop over the aggregation results in `get_balance`:
assigns each group's total to the matching accumulator and adds its count
to `transaction_count`. -/
def balanceFold : List GroupDoc → Rat × Rat × Nat → Rat × Rat × Nat
  | [], acc => acc
  | g :: rest, (ti, te, n) =>
    match g.key with
    | .income => balanceFold rest (g.total, te, n + g.count)
    | .expense => balanceFold rest (ti, g.total, n + g.count)

/-- The `GET /transactions/balance/current` handler
(`transactions.get_balance`): match the caller's non-deleted transactions,
group by type, fold the group documents starting from
`total_income = total_expenses = 0.0`, `transaction_count = 0`, and derive
`current_balance = total_income - total_expenses`. -/
def get_balance (store : List TransactionInDB) (uid : String) : BalanceResponse :=
  let matched := store.filter (txnMatches uid)
  let results := groupByType matched
  let z := balanceFold results (0, 0, 0)
  { total_income := z.1
    total_expenses := z.2.1
    current_balance := z.1 - z.2.1
    transaction_count := z.2.2 }

/-! ### Listing (`transactions.get_transactions`) -/

/-- Stable descending insertion of a transaction into a list already
sorted by `date` descending (helper of the model of Mongo
`sort("date", -1)`). -/
def insertDesc (t : TransactionInDB) : List TransactionInDB → List TransactionInDB
  | [] => [t]
  | u :: us => if u.date < t.date then t :: u :: us else u :: insertDesc t us

/-- Model of the Mongo cursor stage `sort("date", -1)`: stable insertion
sort by `date` descending. -/
def sortByDateDesc : List TransactionInDB → List TransactionInDB
  | [] => []
  | t :: ts => insertDesc t (sortByDateDesc ts)

/-- Model of the Mongo cursor stage `limit(n)` (pymongo semantics):
`limit(0)` applies no limit at all; a negative limit behaves like its
absolute value (it additionally closes the cursor, which is not
observable here). -/
def applyLimit (limit : Int) (l : List TransactionResponse) : List TransactionResponse :=
  if limit == 0 then l else l.take limit.natAbs

/-- Outcome of the `GET /transactions` route as observed by the client. -/
inductive ListOutcome
  | ok (items : List TransactionResponse)
  /-- HTTP 422: a request-validation error raised by the framework before
  the handler runs.  The route declares `skip: int = 0, limit: int = 100`
  with no bounds, so this outcome is never produced for skip/limit. -/
  | unprocessable
  /-- HTTP 500: an exception escaping the handler (pymongo's
  `Cursor.skip` raises `ValueError` on a negative skip). -/
  | internalError
deriving DecidableEq, Repr

/-- The `GET /transactions` handler (`transactions.get_transactions`):
find by owner and `deleted_at = None`, sort by date descending, apply
`skip` and `limit`, map to `TransactionResponse`.  `skip` and `limit`
arrive unvalidated as arbitrary integers. -/
def get_transactions (store : List TransactionInDB) (uid : String)
    (skip limit : Int) : ListOutcome :=
  if skip < 0 then .internalError
  else
    let base := sortByDateDesc (store.filter (txnMatches uid))
    .ok (applyLimit limit ((base.drop skip.toNat).map toResponse))

/-! ### Get one (`transactions.get_transaction`) -/

/-- Outcome of the `GET /transactions/\x7btransaction_id\x7d` route. -/
inductive GetOutcome
  | ok (item : TransactionResponse)
  /-- HTTP 404 "Transaction not found" — used both for a missing and for a
  non-owned transaction. -/
  | notFound
deriving DecidableEq, Repr

/-- The `GET /transactions/\x7btransaction_id\x7d` handler
(`transactions.get_transaction`): `find_one` on public id, owner and the
soft-delete filter; 404 when no document matches. -/
def get_transaction (store : List TransactionInDB) (tid uid : String) : GetOutcome :=
  match store.find?
      (fun t => t.public_id == tid && t.user_public_id == uid && t.deleted_at == none) with
  | none => .notFound
  | some t => .ok (toResponse t)

/-! ### Soft delete (`transactions.delete_transaction`) -/

/-- Model of Mongo `update_one`: apply `f` to the first document matching
`p` (if any) and report the matched count (0 or 1).  All other documents
are untouched. -/
def updateOne {α : Type} (p : α → Bool) (f : α → α) : List α → List α × Nat
  | [] => ([], 0)
  | x :: xs =>
    if p x then (f x :: xs, 1)
    else
      let r := updateOne p f xs
      (x :: r.1, r.2)

/-- Outcome of the `DELETE /transactions/\x7btransaction_id\x7d` route. -/
inductive DeleteOutcome
  /-- HTTP 204. -/
  | noContent
  /-- HTTP 404 "Transaction not found". -/
  | notFound
deriving DecidableEq, Repr

/-- The `DELETE /transactions/\x7btransaction_id\x7d` handler
(`transactions.delete_transaction`): `update_one` on public id, owner and
`deleted_at = None`, setting only `deleted_at` to the current UTC time;
404 when the matched count is 0. -/
def delete_transaction (store : List TransactionInDB) (tid uid : String)
    (now : Int) : DeleteOutcome × List TransactionInDB :=
  let r := updateOne
      (fun t => t.public_id == tid && t.user_public_id == uid && t.deleted_at == none)
      (fun t => { t with deleted_at := some now }) store
  (if r.2 == 0 then .notFound else .noContent, r.1)

/-! ### Create (`transactions.create_transaction`) -/

/-- Validated body of `POST /transactions` (`models.TransactionCreate`),
as it reaches the handler. -/
structure TransactionCreateData where
  type : TransactionType
  category : TransactionCategory
  amount : Rat
  description : String
  date : Int
deriving DecidableEq, Repr

/-- The `POST /transactions` handler (`transactions.create_transaction`):
stamp `user_public_id` from the authenticated user, insert, and echo the
public view.  `pid` and `now` are the fresh UUID and current time. -/
def create_transaction (store : List TransactionInDB) (uid : String)
    (data : TransactionCreateData) (pid : String) (now : Int) :
    TransactionResponse × List TransactionInDB :=
  let t : TransactionInDB :=
    { public_id := pid
      user_public_id := uid
      type := data.type
      category := data.category
      amount := data.amount
      description := data.description
      date := data.date
      created_at := now
      updated_at := now
      deleted_at := none }
  (toResponse t, store ++ [t])

/-! ### Credential hasher (`security.verify_password`, `security.get_password_hash`)

`security.py` delegates both directly to a passlib `CryptContext`
configured with the single scheme `bcrypt`.  passlib and bcrypt are
dependencies, modelled here at the behavioural level:

* `CryptContext.verify` first identifies the scheme of the hash string;
  a string it cannot identify raises `UnknownHashError` (a `ValueError`)
  — it does not return `False`.
* bcrypt truncates the password to its first 72 bytes before digesting.
* the digest is abstracted injectively: the modelled hash string embeds
  the salt and the truncated password, so that recompute-and-compare
  verification succeeds exactly when the truncated passwords agree, as it
  does for the real digest (up to negligible collisions).
-/

/-- Result of `verify_password`: either a boolean, or an uncaught
exception (passlib `UnknownHashError`). -/
inductive VerifyOutcome
  | result (b : Bool)
  | raised
deriving DecidableEq, Repr

/-- bcrypt preprocessing: truncation of the password to 72 bytes. -/
def truncate72 (p : String) : String := ⟨p.data.take 72⟩

/-- Scheme identification performed by `CryptContext.verify`: bcrypt
hashes are recognised by their `$2b$` / `$2a$` / `$2y$` marker. -/
def identifiesAsBcrypt (h : String) : Bool :=
  h.data.take 4 == "$2b$".data || h.data.take 4 == "$2a$".data || h.data.take 4 == "$2y$".data

/-- `security.get_password_hash` (via passlib bcrypt): a modular-crypt
string containing the variant and cost marker, the 22-character salt, and
the digest of the truncated password under that salt (digest modelled
injectively by the truncated password itself). -/
def get_password_hash (salt p : String) : String :=
  "$2b$12$" ++ salt ++ truncate72 p

/-- Salt embedded in a modelled bcrypt hash string: the 22 characters
after the 7-character `$2b$12$` marker. -/
def saltOf (h : String) : String := ⟨(h.data.drop 7).take 22⟩

/-- `security.verify_password` (via `CryptContext.verify`): raise on a
hash that does not identify as bcrypt, otherwise recompute the hash from
the embedded salt and compare (constant-time in the real code). -/
def verify_password (p h : String) : VerifyOutcome :=
  if identifiesAsBcrypt h then .result (h == get_password_hash (saltOf h) p)
  else .raised

/-! ### Python `uuid.UUID` string parsing

`get_current_user` builds `TokenData(user_public_id=sub)` where the field
has type `UUID`: pydantic runs CPython's `UUID(sub)` parser.  CPython
removes every occurrence of `urn:` and `uuid:`, strips `\x7b`/`\x7d` from
both ends, removes every dash, and requires the 32 remaining characters
to be hex digits (the extra tolerance of `int(s, 16)` for signs and
whitespace inside 32-character inputs is not modelled; no claim depends
on it).  `str(uuid)` re-renders the 32 digits lowercased in 8-4-4-4-12
form. -/

/-- Remove every (non-overlapping, left-to-right) occurrence of `pat`
from `l`; fuel-structured so that it evaluates by kernel reduction. -/
def stripPatternGo (pat : List Char) : Nat → List Char → List Char
  | _, [] => []
  | 0, l => l
  | fuel + 1, c :: cs =>
    if !pat.isEmpty && (c :: cs).take pat.length == pat then
      stripPatternGo pat fuel ((c :: cs).drop pat.length)
    else c :: stripPatternGo pat fuel cs

/-- Python `str.replace(pat, "")`. -/
def stripPattern (pat l : List Char) : List Char := stripPatternGo pat l.length l

/-- Opening or closing curly brace. -/
def isBraceChar (c : Char) : Bool := c == '\x7b' || c == '\x7d'

/-- Python `str.strip('\x7b\x7d')`. -/
def stripBraces (l : List Char) : List Char :=
  ((l.dropWhile isBraceChar).reverse.dropWhile isBraceChar).reverse

/-- Hexadecimal digit (as accepted by `int(_, 16)` digit-wise). -/
def isHexChar (c : Char) : Bool :=
  c.isDigit || ('a' ≤ c && c ≤ 'f') || ('A' ≤ c && c ≤ 'F')

/-- The candidate hex digits of a UUID string after CPython's cleanup
(remove `urn:`/`uuid:`, strip braces, drop dashes). -/
def uuidHexDigits (s : String) : List Char :=
  (stripBraces (stripPattern "uuid:".data (stripPattern "urn:".data s.data))).filter
    (fun c => c != '-')

/-- Whether CPython `uuid.UUID(s)` accepts `s`. -/
def pyUUIDParses (s : String) : Bool :=
  (uuidHexDigits s).length == 32 && (uuidHexDigits s).all isHexChar

/-- The canonical form `str(uuid.UUID(s))`: lowercased hex digits in
8-4-4-4-12 grouping. -/
def pyUUIDCanon (s : String) : String :=
  let h := (uuidHexDigits s).map Char.toLower
  ⟨h.take 8 ++ '-' :: (h.drop 8).take 4 ++ '-' :: (h.drop 12).take 4 ++
    '-' :: (h.drop 16).take 4 ++ '-' :: h.drop 20⟩

/-! ### Auth guard (`security.get_current_user`) -/

/-- Claims of a decoded JWT payload, as read by `payload.get("sub")` and
`payload.get("email")`. -/
structure JWTPayload where
  sub : Option String
  email : Option String
deriving DecidableEq, Repr

/-- Result of `jose.jwt.decode`: a payload, or a `JWTError` (malformed
token, bad signature, or expired token). -/
inductive DecodeResult
  | ok (payload : JWTPayload)
  | error
deriving DecidableEq, Repr

/-- Outcome of the auth guard as observed by the client. -/
inductive AuthResult
  /-- The resolved active user. -/
  | ok (user : UserInDB)
  /-- HTTP 401 "Could not validate credentials" (the single
  `credentials_exception` object, raised identically for every 401
  cause). -/
  | unauthenticated
  /-- HTTP 403 "Inactive user account". -/
  | forbidden
  /-- HTTP 500: an exception neither caught by `except JWTError` nor an
  `HTTPException` — pydantic's `ValidationError` when the `sub` claim
  does not parse as a UUID. -/
  | internalError
deriving DecidableEq, Repr

/-- Mongo filter of the guard's user lookup:
`{"public_id": str(token_data.user_public_id), "deleted_at": None}`. -/
def activeUserMatch (pid : String) (u : UserInDB) : Bool :=
  u.public_id == pid && u.deleted_at == none

/-- `security.get_current_user`: decode the bearer token (`JWTError` ↦
401); require both `sub` and `email` claims (missing ↦ 401); build
`TokenData`, whose `UUID` field validation escapes the `except JWTError`
block when `sub` is not a UUID (↦ 500); look up a non-deleted user by the
canonical UUID string (absent ↦ the same 401); finally reject inactive
users with 403 and return the user otherwise. -/
def get_current_user (decoded : DecodeResult) (users : List UserInDB) : AuthResult :=
  match decoded with
  | .error => .unauthenticated
  | .ok payload =>
    match payload.sub, payload.email with
    | some pid, some _ =>
      if pyUUIDParses pid then
        match users.find? (activeUserMatch (pyUUIDCanon pid)) with
        | none => .unauthenticated
        | some u => if u.is_active then .ok u else .forbidden
      else .internalError
    | _, _ => .unauthenticated

/-! ### Registration (`auth.register`) -/

/-- Lowercase the domain part (everything after the last `@`) of an email
address, leaving the local part untouched: the normalization pydantic's
`EmailStr` (email-validator) applies before the value reaches the
handler. -/
def lowerDomain (cs : List Char) : List Char :=
  let rev := cs.reverse
  if rev.contains '@' then
    let domainRev := rev.takeWhile (fun c => c != '@')
    let restRev := rev.drop domainRev.length
    restRev.reverse ++ (domainRev.reverse.map Char.toLower)
  else cs

/-- Email normalization at the pydantic boundary (`EmailStr`): the domain
is lowercased, the local part keeps its case. -/
def normalizeEmail (s : String) : String := ⟨lowerDomain s.data⟩

/-- Password policy of `models.UserCreate` (`Field(min_length=8,
max_length=100)` plus the `validate_password` validator: at least one
uppercase letter, one lowercase letter and one digit; character classes
modelled for the ASCII range). -/
def validPassword (p : String) : Bool :=
  decide (8 ≤ p.length) && decide (p.length ≤ 100) &&
    p.data.any Char.isUpper && p.data.any Char.isLower && p.data.any Char.isDigit

/-- `full_name` policy of `models.UserBase`: 1–100 characters. -/
def validFullName (n : String) : Bool :=
  decide (1 ≤ n.length) && decide (n.length ≤ 100)

/-- Outcome of `POST /auth/register` as observed by the client. -/
inductive RegisterOutcome
  /-- HTTP 201 with the public user view. -/
  | created (resp : UserResponse)
  /-- HTTP 400 "Email already registered". -/
  | conflict
  /-- HTTP 422: pydantic request validation failed. -/
  | unprocessable
deriving DecidableEq, Repr

/-- The `POST /auth/register` handler (`auth.register`) together with its
pydantic boundary: validate the body (`UserCreate`), `find_one` a
non-deleted user with the normalized email string (exact, case-sensitive
match — there is no unique index and no case folding of the local part),
conflict if found; otherwise hash the password and insert a fresh user.
`salt`, `pid` and `now` are the bcrypt salt, fresh UUID and current
time. -/
def register (users : List UserInDB) (email full_name password salt pid : String)
    (now : Int) : RegisterOutcome × List UserInDB :=
  if validPassword password && validFullName full_name then
    let email' := normalizeEmail email
    match users.find? (fun u => u.email == email' && u.deleted_at == none) with
    | some _ => (.conflict, users)
    | none =>
      let user : UserInDB :=
        { public_id := pid
          email := email'
          full_name := full_name
          hashed_password := get_password_hash salt password
          created_at := now
          updated_at := now
          deleted_at := none
          is_active := true }
      (.created { public_id := pid, email := email', full_name := full_name,
                  created_at := now },
       users ++ [user])
  else (.unprocessable, users)

/-! ### Response serialization (for the claims about what is exposed) -/

/-- A JSON scalar as it appears in a serialized response body. -/
inductive JsonVal
  | s (v : String)
  | num (v : Rat)
  | int (v : Int)
  | nat (v : Nat)
deriving DecidableEq, Repr

/-- Serialization of `UserResponse` (the body of a 201 register
response): exactly the four public fields. -/
def serializeUserResponse (r : UserResponse) : List (String × JsonVal) :=
  [("public_id", .s r.public_id), ("email", .s r.email),
   ("full_name", .s r.full_name), ("created_at", .int r.created_at)]

/-- Serialization of `TransactionResponse`. -/
def serializeTransactionResponse (r : TransactionResponse) : List (String × JsonVal) :=
  [("public_id", .s r.public_id), ("type", .s r.type.value),
   ("category", .s r.category.value), ("amount", .num r.amount),
   ("description", .s r.description), ("date", .int r.date),
   ("created_at", .int r.created_at)]

/-- Serialization of `BalanceResponse`. -/
def serializeBalanceResponse (b : BalanceResponse) : List (String × JsonVal) :=
  [("total_income", .num b.total_income), ("total_expenses", .num b.total_expenses),
   ("current_balance", .num b.current_balance),
   ("transaction_count", .nat b.transaction_count)]

/-- Income documents among the caller's visible transactions (spec-side
abbreviation used to state the balance claims). -/
def incomeTxns (store : List TransactionInDB) (uid : String) : List TransactionInDB :=
  (store.filter (txnMatches uid)).filter (fun t => t.type == TransactionType.income)

/-- Expense documents among the caller's visible transactions (spec-side
abbreviation used to state the balance claims). -/
def expenseTxns (store : List TransactionInDB) (uid : String) : List TransactionInDB :=
  (store.filter (txnMatches uid)).filter (fun t => t.type == TransactionType.expense)

/-- Shorthand for building a concrete transaction document in witnesses. -/
def mkTxn (pid uid : String) (ty : TransactionType) (cat : TransactionCategory)
    (amt : Rat) (d : Int) (del : Option Int) : TransactionInDB :=
  { public_id := pid
    user_public_id := uid
    type := ty
    category := cat
    amount := amt
    description := ""
    date := d
    created_at := 0
    updated_at := 0
    deleted_at := del }

/-- Shorthand for building a concrete user document in witnesses. -/
def mkUser (pid email : String) (del : Option Int) (active : Bool) : UserInDB :=
  { public_id := pid
    email := email
    full_name := "Test User"
    hashed_password := "$2b$12$abcdefghijklmnopqrstuvhash"
    created_at := 0
    updated_at := 0
    deleted_at := del
    is_active := active }

/-! ## Theorems

Helper lemmas first, then one theorem per claim (with its witness or
counterexample). -/

/-- Evaluation of the balance route: the aggregation-plus-fold pipeline
computes exactly the sums, the count, and the derived balance over the
caller's visible income and expense documents. -/
theorem get_balance_eq (store : List TransactionInDB) (uid : String) :
    get_balance store uid =
      { total_income := ((incomeTxns store uid).map (·.amount)).sum
        total_expenses := ((expenseTxns store uid).map (·.amount)).sum
        current_balance := ((incomeTxns store uid).map (·.amount)).sum
            - ((expenseTxns store uid).map (·.amount)).sum
        transaction_count := (incomeTxns store uid).length + (expenseTxns store uid).length } := by
  have hI : incomeTxns store uid
      = (store.filter (txnMatches uid)).filter (fun t => t.type == TransactionType.income) := rfl
  have hE : expenseTxns store uid
      = (store.filter (txnMatches uid)).filter (fun t => t.type == TransactionType.expense) := rfl
  simp only [get_balance, groupByType, ← hI, ← hE]
  cases hIe : (incomeTxns store uid).isEmpty with
  | true =>
    have hInil : incomeTxns store uid = [] := List.isEmpty_iff.mp hIe
    cases hEe : (expenseTxns store uid).isEmpty with
    | true =>
      have hEnil : expenseTxns store uid = [] := List.isEmpty_iff.mp hEe
      simp [hInil, hEnil, balanceFold]
    | false =>
      simp [hInil, hEe, balanceFold]
  | false =>
    cases hEe : (expenseTxns store uid).isEmpty with
    | true =>
      have hEnil : expenseTxns store uid = [] := List.isEmpty_iff.mp hEe
      simp [hIe, hEnil, balanceFold]
    | false =>
      simp [hIe, hEe, balanceFold]

/-- The balance route reads the store only through the owner-and-alive
filter. -/
theorem get_balance_congr {store store' : List TransactionInDB} (uid : String)
    (h : store.filter (txnMatches uid) = store'.filter (txnMatches uid)) :
    get_balance store uid = get_balance store' uid := by
  simp only [get_balance, h]

/-- The list route reads the store only through the owner-and-alive
filter. -/
theorem get_transactions_congr {store store' : List TransactionInDB} (uid : String)
    (h : store.filter (txnMatches uid) = store'.filter (txnMatches uid))
    (skip limit : Int) :
    get_transactions store uid skip limit = get_transactions store' uid skip limit := by
  simp only [get_transactions, h]

/-- Inserting into a list is a permutation of consing. -/
theorem insertDesc_perm (t : TransactionInDB) (l : List TransactionInDB) :
    List.Perm (insertDesc t l) (t :: l) := by
  induction l with
  | nil => exact List.Perm.refl _
  | cons u us ih =>
    simp only [insertDesc]
    by_cases h : u.date < t.date
    · rw [if_pos h]
    · rw [if_neg h]
      exact (ih.cons u).trans (List.Perm.swap t u us)

/-- Insertion preserves the date-descending pairwise order. -/
theorem insertDesc_sorted (t : TransactionInDB) (l : List TransactionInDB)
    (h : l.Pairwise (fun a b => b.date ≤ a.date)) :
    (insertDesc t l).Pairwise (fun a b => b.date ≤ a.date) := by
  induction l with
  | nil => simp [insertDesc]
  | cons u us ih =>
    rcases List.pairwise_cons.mp h with ⟨hu, hus⟩
    simp only [insertDesc]
    by_cases hlt : u.date < t.date
    · rw [if_pos hlt]
      refine List.pairwise_cons.mpr ⟨?_, h⟩
      intro b hb
      rcases List.mem_cons.mp hb with rfl | hb
      · exact le_of_lt hlt
      · exact le_trans (hu b hb) (le_of_lt hlt)
    · rw [if_neg hlt]
      refine List.pairwise_cons.mpr ⟨?_, ih hus⟩
      intro b hb
      rcases List.mem_cons.mp ((insertDesc_perm t us).mem_iff.mp hb) with rfl | hb
      · exact le_of_not_lt hlt
      · exact hu b hb

/-- The modelled Mongo sort is a permutation of its input. -/
theorem sortByDateDesc_perm (l : List TransactionInDB) :
    List.Perm (sortByDateDesc l) l := by
  induction l with
  | nil => exact List.Perm.refl _
  | cons t ts ih => exact (insertDesc_perm t (sortByDateDesc ts)).trans (ih.cons t)

/-- The modelled Mongo sort is ordered by date descending. -/
theorem sortByDateDesc_sorted (l : List TransactionInDB) :
    (sortByDateDesc l).Pairwise (fun a b => b.date ≤ a.date) := by
  induction l with
  | nil => simp [sortByDateDesc]
  | cons t ts ih => exact insertDesc_sorted t _ ih

/-- Everything the list route returns comes from the store's filtered
documents. -/
theorem applyLimit_subset (limit : Int) (l : List TransactionResponse) :
    applyLimit limit l ⊆ l := by
  by_cases h : limit == 0
  · simp [applyLimit, h]
  · simp only [applyLimit, h, if_false, Bool.false_eq_true]
    exact List.take_subset _ _

/-- Characterization of `updateOne`: either nothing matches and the list
is returned untouched with matched count 0, or the first matching
element (at some position `i`) is replaced by its image under `f` and the
matched count is 1. -/
theorem updateOne_spec {α : Type} (p : α → Bool) (f : α → α) (l : List α) :
    ((updateOne p f l).2 = 0 ∧ (updateOne p f l).1 = l ∧ ∀ x ∈ l, p x = false) ∨
    ((updateOne p f l).2 = 1 ∧ ∃ i t, l[i]? = some t ∧ p t = true ∧
        (∀ j u, j < i → l[j]? = some u → p u = false) ∧
        (updateOne p f l).1 = l.set i (f t)) := by
  induction l with
  | nil => left; simp [updateOne]
  | cons x xs ih =>
    by_cases hx : p x
    · right
      refine ⟨by simp [updateOne, hx], 0, x, by simp, hx, ?_, by simp [updateOne, hx]⟩
      intro j u hj _
      omega
    · have hx' : p x = false := by simpa using hx
      rcases ih with ⟨h0, h1, h2⟩ | ⟨h0, i, t, hget, hpt, hfirst, hset⟩
      · left
        refine ⟨by simp [updateOne, hx', h0], by simp [updateOne, hx', h1], ?_⟩
        intro y hy
        rcases List.mem_cons.mp hy with rfl | hy
        · exact hx'
        · exact h2 y hy
      · right
        refine ⟨by simp [updateOne, hx', h0], i + 1, t, by simpa using hget, hpt, ?_,
          by simp [updateOne, hx', hset]⟩
        intro j u hj hu
        cases j with
        | zero =>
          have hux : x = u := by simpa using hu
          rw [← hux]; exact hx'
        | succ j' => exact hfirst j' u (by omega) (by simpa using hu)

/-- Positions whose element fails the update filter are untouched by
`updateOne`. -/
theorem updateOne_getElem?_of_false {α : Type} (p : α → Bool) (f : α → α)
    (l : List α) (j : Nat) (t : α) (hget : l[j]? = some t) (ht : p t = false) :
    (updateOne p f l).1[j]? = some t := by
  rcases updateOne_spec p f l with ⟨_, h1, _⟩ | ⟨_, i, u, hu, hpu, _, hset⟩
  · rw [h1]; exact hget
  · rw [hset]
    by_cases hij : i = j
    · subst hij
      rw [hu] at hget
      cases hget
      rw [hpu] at ht
      cases ht
    · rw [List.getElem?_set_ne hij]
      exact hget

/-- If no element of the list satisfies the filter, `updateOne` returns
the list unchanged with matched count 0. -/
theorem updateOne_of_none {α : Type} (p : α → Bool) (f : α → α) (l : List α)
    (h : ∀ x ∈ l, p x = false) : updateOne p f l = (l, 0) := by
  induction l with
  | nil => rfl
  | cons x xs ih =>
    have hx := h x (List.mem_cons_self x xs)
    simp only [updateOne, hx, Bool.false_eq_true, if_false]
    rw [ih fun y hy => h y (List.mem_cons_of_mem x hy)]

/-- Erasing an element that fails the filter does not change the filtered
list. -/
theorem filter_erase_of_false {α : Type} [DecidableEq α] (p : α → Bool) (t : α)
    (ht : p t = false) (l : List α) : (l.erase t).filter p = l.filter p := by
  induction l with
  | nil => rfl
  | cons x xs ih =>
    by_cases hxt : x = t
    · subst hxt
      rw [List.erase_cons_head, List.filter_cons_of_neg (by simp [ht])]
    · rw [List.erase_cons_tail (by simpa using fun h => hxt h)]
      by_cases hpx : p x
      · rw [List.filter_cons_of_pos hpx, List.filter_cons_of_pos hpx, ih]
      · rw [List.filter_cons_of_neg (by simpa using hpx),
          List.filter_cons_of_neg (by simpa using hpx), ih]

/-- C1: for every user and store state, the balance aggregation over the
user's non-deleted transactions returns `totalIncome` equal to the sum of
amounts of income transactions, `totalExpenses` equal to the sum of
amounts of expense transactions, `transaction_count` equal to the number
of income plus expense transactions, and `current_balance` equal to
`totalIncome - totalExpenses`; a type with no transactions yields total 0
(the field is present and zero, not absent); and the whole result is
invariant under permutation of the store, i.e. independent of insertion
order. -/
theorem C1_balance_aggregation (store store' : List TransactionInDB) (uid : String)
    (hperm : List.Perm store store') :
    (get_balance store uid).total_income = ((incomeTxns store uid).map (·.amount)).sum ∧
    (get_balance store uid).total_expenses = ((expenseTxns store uid).map (·.amount)).sum ∧
    (get_balance store uid).transaction_count
        = (incomeTxns store uid).length + (expenseTxns store uid).length ∧
    (get_balance store uid).current_balance
        = (get_balance store uid).total_income - (get_balance store uid).total_expenses ∧
    (incomeTxns store uid = [] → (get_balance store uid).total_income = 0) ∧
    (expenseTxns store uid = [] → (get_balance store uid).total_expenses = 0) ∧
    get_balance store' uid = get_balance store uid := by
  have h := get_balance_eq store uid
  have h' := get_balance_eq store' uid
  have hIperm : List.Perm (incomeTxns store' uid) (incomeTxns store uid) := by
    unfold incomeTxns
    exact (hperm.symm.filter _).filter _
  have hEperm : List.Perm (expenseTxns store' uid) (expenseTxns store uid) := by
    unfold expenseTxns
    exact (hperm.symm.filter _).filter _
  refine ⟨by rw [h], by rw [h], by rw [h], by rw [h], ?_, ?_, ?_⟩
  · intro hnil; rw [h]; simp [hnil]
  · intro hnil; rw [h]; simp [hnil]
  · rw [h, h']
    have hsumI := (hIperm.map (·.amount)).sum_eq
    have hsumE := (hEperm.map (·.amount)).sum_eq
    rw [hsumI, hsumE, hIperm.length_eq, hEperm.length_eq]

/-- Witness for C1: a concrete two-transaction store, its reversal as the
permuted store. -/
theorem C1_balance_aggregation_witness :
    List.Perm [mkTxn "t1" "u" .income .salary 5000 1 none, mkTxn "t2" "u" .expense .food 500 2 none]
      [mkTxn "t2" "u" .expense .food 500 2 none, mkTxn "t1" "u" .income .salary 5000 1 none] ∧
    get_balance [mkTxn "t2" "u" .expense .food 500 2 none,
        mkTxn "t1" "u" .income .salary 5000 1 none] "u"
      = get_balance [mkTxn "t1" "u" .income .salary 5000 1 none,
          mkTxn "t2" "u" .expense .food 500 2 none] "u" :=
  ⟨by decide, (C1_balance_aggregation _ _ "u" (by decide)).2.2.2.2.2.2⟩

/-- C2: every transaction returned by list or get-by-id belongs to the
requesting user; a delete request leaves every document of another owner
untouched; and the balance aggregate is computed from the requesting
user's documents alone, so another user's transactions are never
returned, deletable, or counted. -/
theorem C2_user_isolation (store : List TransactionInDB) (uid : String) :
    (∀ skip limit l, get_transactions store uid skip limit = .ok l →
        ∀ r ∈ l, ∃ t, t ∈ store ∧ t.user_public_id = uid ∧ r = toResponse t) ∧
    (∀ tid r, get_transaction store tid uid = .ok r →
        ∃ t, t ∈ store ∧ t.user_public_id = uid ∧ r = toResponse t) ∧
    (∀ (tid : String) (now : Int) (j : Nat) (t : TransactionInDB),
        store[j]? = some t → t.user_public_id ≠ uid →
        ((delete_transaction store tid uid now).2)[j]? = some t) ∧
    get_balance store uid = get_balance (store.filter (fun t => t.user_public_id == uid)) uid := by
  refine ⟨?_, ?_, ?_, ?_⟩
  · intro skip limit l hok r hr
    by_cases hs : skip < 0
    · simp [get_transactions, hs] at hok
    · simp only [get_transactions, hs, if_false, ListOutcome.ok.injEq] at hok
      subst hok
      have h1 : r ∈ ((sortByDateDesc (store.filter (txnMatches uid))).drop skip.toNat).map
          toResponse := applyLimit_subset _ _ hr
      obtain ⟨t, ht, rfl⟩ := List.mem_map.mp h1
      have ht2 : t ∈ sortByDateDesc (store.filter (txnMatches uid)) := List.drop_subset _ _ ht
      have ht3 : t ∈ store.filter (txnMatches uid) :=
        (sortByDateDesc_perm _).mem_iff.mp ht2
      obtain ⟨hmem, hmatch⟩ := List.mem_filter.mp ht3
      refine ⟨t, hmem, ?_, rfl⟩
      have := (Bool.and_eq_true _ _).mp hmatch
      exact beq_iff_eq.mp this.1
  · intro tid r hok
    cases hfind : store.find?
        (fun t => t.public_id == tid && t.user_public_id == uid && t.deleted_at == none) with
    | none => simp [get_transaction, hfind] at hok
    | some t =>
      have hr : r = toResponse t := by
        simp only [get_transaction, hfind, GetOutcome.ok.injEq] at hok
        exact hok.symm
      have hmem := List.mem_of_find?_eq_some hfind
      have hp := List.find?_some hfind
      refine ⟨t, hmem, ?_, hr⟩
      have h1 := (Bool.and_eq_true _ _).mp hp
      have h2 := (Bool.and_eq_true _ _).mp h1.1
      exact beq_iff_eq.mp h2.2
  · intro tid now j t hget hne
    have hp : (t.public_id == tid && t.user_public_id == uid && t.deleted_at == none) = false := by
      have : (t.user_public_id == uid) = false := beq_eq_false_iff_ne.mpr hne
      simp [this]
    exact updateOne_getElem?_of_false _ _ store j t hget hp
  · refine (get_balance_congr uid ?_)
    rw [List.filter_filter]
    refine (List.filter_congr ?_).symm
    intro a _
    simp only [txnMatches]
    cases h1 : a.user_public_id == uid <;> cases h2 : a.deleted_at == none <;> simp [h1, h2]

/-- Witness for C2: a store holding one transaction of user `u` and one
of user `v`; get-by-id as `u` returns `u`'s document. -/
theorem C2_user_isolation_witness :
    get_transaction [mkTxn "t1" "u" .income .salary 5 1 none,
        mkTxn "t2" "v" .income .salary 7 1 none] "t1" "u"
      = .ok (toResponse (mkTxn "t1" "u" .income .salary 5 1 none)) ∧
    ∃ t, t ∈ [mkTxn "t1" "u" .income .salary 5 1 none,
        mkTxn "t2" "v" .income .salary 7 1 none] ∧ t.user_public_id = "u" ∧
      toResponse (mkTxn "t1" "u" .income .salary 5 1 none) = toResponse t :=
  ⟨by decide,
    (C2_user_isolation [mkTxn "t1" "u" .income .salary 5 1 none,
        mkTxn "t2" "v" .income .salary 7 1 none] "u").2.1 "t1" _ (by decide)⟩

/-- C3 counterexample: a correctly signed token whose `sub` claim is
present but not a UUID (here `"zzz"`).  The claim as stated requires the
guard to fail with Unauthenticated (401) whenever the claims are valid
but no matching user exists; the code instead lets pydantic's
`ValidationError` escape the `except JWTError` handler, producing an
internal error (500). -/
theorem C3_counterexample :
    get_current_user (.ok { sub := some "zzz", email := some "a@b.com" }) []
      = .internalError ∧
    AuthResult.internalError ≠ AuthResult.unauthenticated := by
  constructor
  · decide
  · decide

/-- C3 (amended): the auth guard maps a `JWTError` (malformed token, bad
signature, expired) to Unauthenticated; missing `sub` or `email` claims
to Unauthenticated; a verified token whose `sub` does not parse as a UUID
to an internal error (500) rather than Unauthenticated; a UUID `sub` with
no non-deleted matching user to the same Unauthenticated outcome (the
identical `credentials_exception`, indistinguishable from the
invalid-token case); an inactive matched user to Forbidden; and an active
matched user to success. -/
theorem C3_amended_guard (users : List UserInDB) :
    (get_current_user .error users = .unauthenticated) ∧
    (∀ e : Option String,
        get_current_user (.ok { sub := none, email := e }) users = .unauthenticated) ∧
    (∀ s : Option String,
        get_current_user (.ok { sub := s, email := none }) users = .unauthenticated) ∧
    (∀ pid em : String, pyUUIDParses pid = false →
        get_current_user (.ok { sub := some pid, email := some em }) users
          = .internalError) ∧
    (∀ pid em : String, pyUUIDParses pid = true →
        users.find? (activeUserMatch (pyUUIDCanon pid)) = none →
        get_current_user (.ok { sub := some pid, email := some em }) users
          = .unauthenticated) ∧
    (∀ (pid em : String) (u : UserInDB), pyUUIDParses pid = true →
        users.find? (activeUserMatch (pyUUIDCanon pid)) = some u → u.is_active = false →
        get_current_user (.ok { sub := some pid, email := some em }) users = .forbidden) ∧
    (∀ (pid em : String) (u : UserInDB), pyUUIDParses pid = true →
        users.find? (activeUserMatch (pyUUIDCanon pid)) = some u → u.is_active = true →
        get_current_user (.ok { sub := some pid, email := some em }) users = .ok u) := by
  refine ⟨rfl, fun e => ?_, fun s => ?_, fun pid em hbad => ?_,
      fun pid em hok hnone => ?_, fun pid em u hok hfound hin => ?_,
      fun pid em u hok hfound hact => ?_⟩
  · rfl
  · cases s <;> rfl
  · simp [get_current_user, hbad]
  · simp [get_current_user, hok, hnone]
  · simp [get_current_user, hok, hfound, hin]
  · simp [get_current_user, hok, hfound, hact]

/-- Witness for the amended C3: a concrete active user resolved by the
guard from a valid payload whose `sub` is its canonical UUID string. -/
theorem C3_amended_guard_witness :
    pyUUIDParses "11111111-2222-3333-4444-555555555555" = true ∧
    [mkUser "11111111-2222-3333-4444-555555555555" "alice@example.com" none true].find?
        (activeUserMatch (pyUUIDCanon "11111111-2222-3333-4444-555555555555"))
      = some (mkUser "11111111-2222-3333-4444-555555555555" "alice@example.com" none true) ∧
    get_current_user
        (.ok { sub := some "11111111-2222-3333-4444-555555555555",
               email := some "alice@example.com" })
        [mkUser "11111111-2222-3333-4444-555555555555" "alice@example.com" none true]
      = .ok (mkUser "11111111-2222-3333-4444-555555555555" "alice@example.com" none true) :=
  ⟨by decide, by decide,
    (C3_amended_guard
        [mkUser "11111111-2222-3333-4444-555555555555" "alice@example.com" none true]).2.2.2.2.2.2
      "11111111-2222-3333-4444-555555555555" "alice@example.com" _ (by decide) (by decide) rfl⟩

/-- C4 counterexample: registration matches the stored email string
case-sensitively (pydantic only lowercases the domain part), so after
registering `alice@example.com`, a registration with `Alice@example.com`
— the same address up to letter case of the local part — is NOT rejected
with Conflict: it succeeds and creates a second user. -/
theorem C4_counterexample :
    (register [] "alice@example.com" "Alice" "Password1" "abcdefghijklmnopqrstuv" "pid1" 0).1
      = .created { public_id := "pid1", email := "alice@example.com",
                   full_name := "Alice", created_at := 0 } ∧
    (register (register [] "alice@example.com" "Alice" "Password1"
          "abcdefghijklmnopqrstuv" "pid1" 0).2
        "Alice@example.com" "Alice" "Password1" "abcdefghijklmnopqrstuv" "pid2" 1).1
      ≠ .conflict ∧
    ((register (register [] "alice@example.com" "Alice" "Password1"
          "abcdefghijklmnopqrstuv" "pid1" 0).2
        "Alice@example.com" "Alice" "Password1" "abcdefghijklmnopqrstuv" "pid2" 1).2).length
      = 2 := by
  refine ⟨by decide, by decide, by decide⟩

/-- C4 (amended): a registration whose request passes body validation and
whose normalized email string is exactly (case-sensitively) the email of
an existing non-deleted user fails with Conflict (HTTP 400) and creates
no new user.  Emails differing in letter case of the local part are
treated as distinct, and nothing guards the pre-check-then-insert race
(no store-level uniqueness constraint is declared). -/
theorem C4_amended_duplicate_email (users : List UserInDB)
    (email fn pw salt pid : String) (now : Int)
    (hpw : validPassword pw = true) (hfn : validFullName fn = true)
    (hdup : ∃ u, u ∈ users ∧ u.email = normalizeEmail email ∧ u.deleted_at = none) :
    register users email fn pw salt pid now = (.conflict, users) := by
  obtain ⟨u, hu, he, hd⟩ := hdup
  have hcond : (validPassword pw && validFullName fn) = true := by rw [hpw, hfn]; rfl
  cases hfind : users.find?
      (fun v => v.email == normalizeEmail email && v.deleted_at == none) with
  | none =>
    exfalso
    have h2 := List.find?_eq_none.mp hfind u hu
    rw [he, hd] at h2
    simp at h2
  | some v =>
    simp [register, hcond, hfind]

/-- Witness for the amended C4: re-registering an already stored email
yields Conflict and leaves the store unchanged. -/
theorem C4_amended_duplicate_email_witness :
    validPassword "Password1" = true ∧ validFullName "Alice" = true ∧
    (∃ u, u ∈ [mkUser "pid1" "alice@example.com" none true] ∧
        u.email = normalizeEmail "alice@example.com" ∧ u.deleted_at = none) ∧
    register [mkUser "pid1" "alice@example.com" none true] "alice@example.com" "Alice"
        "Password1" "abcdefghijklmnopqrstuv" "pid2" 1
      = (.conflict, [mkUser "pid1" "alice@example.com" none true]) :=
  ⟨by decide, by decide,
    ⟨mkUser "pid1" "alice@example.com" none true, by decide, by decide, rfl⟩,
    C4_amended_duplicate_email _ _ _ _ _ _ _ (by decide) (by decide)
      ⟨mkUser "pid1" "alice@example.com" none true, by decide, by decide, rfl⟩⟩

/-- The modelled hash string always identifies as bcrypt. -/
theorem identifiesAsBcrypt_hash (salt x : String) :
    identifiesAsBcrypt (get_password_hash salt x) = true := by
  have hdata : (get_password_hash salt x).data
      = "$2b$12$".data ++ (salt.data ++ (truncate72 x).data) := by
    simp [get_password_hash, List.append_assoc]
  have htake : ((get_password_hash salt x).data).take 4 = "$2b$".data := by
    rw [hdata, List.take_append_of_le_length (by decide)]
    decide
  simp [identifiesAsBcrypt, htake]

/-- The salt embedded in a modelled hash is recovered exactly when the
salt has bcrypt's fixed 22-character length. -/
theorem saltOf_hash (salt x : String) (hsalt : salt.length = 22) :
    saltOf (get_password_hash salt x) = salt := by
  have hdata : (get_password_hash salt x).data
      = "$2b$12$".data ++ (salt.data ++ (truncate72 x).data) := by
    simp [get_password_hash, List.append_assoc]
  simp only [saltOf, hdata]
  rw [List.drop_left' (by decide), List.take_left' (show salt.data.length = 22 from hsalt)]

/-- C5 counterexample: two violations of the claim.  First,
`verify(p, h)` on a malformed hash (the empty string) raises a passlib
`UnknownHashError` instead of returning false.  Second, two distinct
valid passwords (8–100 characters, policy-compliant) that agree on their
first 72 bytes verify against each other's hashes, because bcrypt
truncates at 72 bytes — refuting `verify(q, hash(p)) = false` for every
`q ≠ p`. -/
theorem C5_counterexample :
    (verify_password "Password1" "" = .raised ∧
      VerifyOutcome.raised ≠ .result false) ∧
    (("Aa1" ++ (⟨List.replicate 69 'a'⟩ : String) ++ "ZZZ" : String)
        ≠ "Aa1" ++ (⟨List.replicate 69 'a'⟩ : String) ++ "QQQ" ∧
      validPassword ("Aa1" ++ (⟨List.replicate 69 'a'⟩ : String) ++ "ZZZ") = true ∧
      validPassword ("Aa1" ++ (⟨List.replicate 69 'a'⟩ : String) ++ "QQQ") = true ∧
      verify_password ("Aa1" ++ (⟨List.replicate 69 'a'⟩ : String) ++ "QQQ")
          (get_password_hash "abcdefghijklmnopqrstuv"
            ("Aa1" ++ (⟨List.replicate 69 'a'⟩ : String) ++ "ZZZ"))
        = .result true) :=
  ⟨⟨by decide, by decide⟩, by decide, by decide, by decide, by decide⟩

/-- C5 (amended): `verify` raises (passlib `UnknownHashError`) on a hash
string it cannot identify as bcrypt, rather than returning false; for a
bcrypt hash of `p`, `verify(p, hash(p))` is true; and
`verify(q, hash(p))` is true exactly when `q` and `p` agree after
bcrypt's 72-byte truncation — in particular false whenever `q ≠ p` and
both fit within 72 bytes, but not for longer passwords. -/
theorem C5_amended_verify (p q salt h : String) (hsalt : salt.length = 22) :
    (identifiesAsBcrypt h = false → verify_password p h = .raised) ∧
    verify_password p (get_password_hash salt p) = .result true ∧
    (verify_password q (get_password_hash salt p) = .result true ↔
      truncate72 q = truncate72 p) := by
  refine ⟨?_, ?_, ?_⟩
  · intro hbad
    simp [verify_password, hbad]
  · simp [verify_password, identifiesAsBcrypt_hash, saltOf_hash salt p hsalt]
  · simp only [verify_password, identifiesAsBcrypt_hash, if_true,
      saltOf_hash salt p hsalt, VerifyOutcome.result.injEq]
    rw [beq_iff_eq]
    constructor
    · intro heq
      have hd := String.ext_iff.mp heq
      simp only [get_password_hash, String.data_append, List.append_assoc,
        List.append_cancel_left_eq] at hd
      exact (String.ext hd).symm
    · intro heq
      rw [show get_password_hash salt q = get_password_hash salt p by
        simp [get_password_hash, heq]]

/-- Witness for the amended C5: round-trip verification succeeds on a
concrete password and the truncation criterion holds for a concrete other
password. -/
theorem C5_amended_verify_witness :
    ("abcdefghijklmnopqrstuv" : String).length = 22 ∧
    verify_password "Password1" (get_password_hash "abcdefghijklmnopqrstuv" "Password1")
      = .result true ∧
    (verify_password "Password2" (get_password_hash "abcdefghijklmnopqrstuv" "Password1")
        = .result true ↔ truncate72 "Password2" = truncate72 "Password1") :=
  ⟨by decide,
    (C5_amended_verify "Password1" "Password2" "abcdefghijklmnopqrstuv" "" (by decide)).2.1,
    (C5_amended_verify "Password1" "Password2" "abcdefghijklmnopqrstuv" "" (by decide)).2.2⟩

/-- C6: a transaction whose `deleted_at` is non-null (and whose public id
is not shared with any non-deleted document) never appears in the list
result (removing it from the store does not change any page), get-by-id
of it returns NotFound for every requester, it contributes nothing to the
balance aggregate, and a delete request targeting it returns NotFound and
leaves the store unchanged. -/
theorem C6_soft_deleted_invisible (store : List TransactionInDB) (t : TransactionInDB)
    (d : Int) (hdel : t.deleted_at = some d)
    (hall : ∀ u ∈ store, u.public_id = t.public_id → u.deleted_at ≠ none) :
    (∀ (uid : String) (skip limit : Int),
        get_transactions store uid skip limit
          = get_transactions (store.erase t) uid skip limit) ∧
    (∀ uid : String, get_transaction store t.public_id uid = .notFound) ∧
    (∀ uid : String, get_balance store uid = get_balance (store.erase t) uid) ∧
    (∀ (uid : String) (now : Int),
        delete_transaction store t.public_id uid now = (.notFound, store)) := by
  have hmatch : ∀ uid : String, txnMatches uid t = false := by
    intro uid
    simp [txnMatches, hdel]
  have hfiltereq : ∀ uid : String,
      (store.erase t).filter (txnMatches uid) = store.filter (txnMatches uid) := by
    intro uid
    exact filter_erase_of_false _ t (hmatch uid) store
  have hpredfalse : ∀ (uid : String) (x : TransactionInDB), x ∈ store →
      (x.public_id == t.public_id && x.user_public_id == uid && x.deleted_at == none)
        = false := by
    intro uid x hx
    by_cases hxp : x.public_id = t.public_id
    · have hxd := hall x hx hxp
      have : (x.deleted_at == none) = false := by
        cases hy : x.deleted_at with
        | none => exact absurd hy hxd
        | some y => rfl
      simp [this]
    · have : (x.public_id == t.public_id) = false := beq_eq_false_iff_ne.mpr hxp
      simp [this]
  refine ⟨?_, ?_, ?_, ?_⟩
  · intro uid skip limit
    exact get_transactions_congr uid (hfiltereq uid).symm skip limit
  · intro uid
    have hnone : store.find?
        (fun x => x.public_id == t.public_id && x.user_public_id == uid
          && x.deleted_at == none) = none := by
      rw [List.find?_eq_none]
      intro x hx
      simp [hpredfalse uid x hx]
    simp [get_transaction, hnone]
  · intro uid
    exact get_balance_congr uid (hfiltereq uid).symm
  · intro uid now
    have hupd := updateOne_of_none
        (fun x => x.public_id == t.public_id && x.user_public_id == uid
          && x.deleted_at == none)
        (fun x => { x with deleted_at := some now }) store (hpredfalse uid)
    simp [delete_transaction, hupd]

/-- Witness for C6: a store holding one soft-deleted transaction; get and
delete of its id both yield NotFound, the store is untouched. -/
theorem C6_soft_deleted_invisible_witness :
    (mkTxn "t1" "u" .income .salary 5 1 (some 3)).deleted_at = some 3 ∧
    (∀ u ∈ [mkTxn "t1" "u" .income .salary 5 1 (some 3)],
        u.public_id = (mkTxn "t1" "u" .income .salary 5 1 (some 3)).public_id →
        u.deleted_at ≠ none) ∧
    get_transaction [mkTxn "t1" "u" .income .salary 5 1 (some 3)]
        (mkTxn "t1" "u" .income .salary 5 1 (some 3)).public_id "u" = .notFound ∧
    delete_transaction [mkTxn "t1" "u" .income .salary 5 1 (some 3)]
        (mkTxn "t1" "u" .income .salary 5 1 (some 3)).public_id "u" 9
      = (.notFound, [mkTxn "t1" "u" .income .salary 5 1 (some 3)]) :=
  ⟨rfl, by decide,
    (C6_soft_deleted_invisible [mkTxn "t1" "u" .income .salary 5 1 (some 3)]
        (mkTxn "t1" "u" .income .salary 5 1 (some 3)) 3 rfl (by decide)).2.1 "u",
    (C6_soft_deleted_invisible [mkTxn "t1" "u" .income .salary 5 1 (some 3)]
        (mkTxn "t1" "u" .income .salary 5 1 (some 3)) 3 rfl (by decide)).2.2.2 "u" 9⟩

/-- C7 counterexample: the claim promises at most `limit` elements for
every request, but pymongo's `limit(0)` means "no limit": with `limit =
0` the route returns every remaining document (here 1 element, exceeding
the limit of 0); and a negative `skip` does not yield a result sequence
at all but a server error. -/
theorem C7_counterexample :
    get_transactions [mkTxn "t1" "u" .income .salary 5 1 none] "u" 0 0
      = .ok [toResponse (mkTxn "t1" "u" .income .salary 5 1 none)] ∧
    ¬ ([toResponse (mkTxn "t1" "u" .income .salary 5 1 none)].length ≤ (0 : Int).toNat) ∧
    get_transactions [mkTxn "t1" "u" .income .salary 5 1 none] "u" (-1) 100
      = .internalError := by
  refine ⟨by decide, by decide, by decide⟩

/-- C7 (amended): for non-negative `skip` and positive `limit`, the list
route returns exactly the requester's non-deleted transactions, in an
order sorted by date descending (a permutation of the filtered store),
with the first `skip` dropped and at most `limit` returned; `limit = 0`
instead disables the cap and a negative `skip` is a server error.  The
result is a pure function of the store, hence finite and re-queryable. -/
theorem C7_amended_listing (store : List TransactionInDB) (uid : String)
    (skip limit : Int) (hskip : 0 ≤ skip) (hlimit : 0 < limit) :
    ∃ full : List TransactionInDB,
      List.Perm full (store.filter (txnMatches uid)) ∧
      full.Pairwise (fun a b => b.date ≤ a.date) ∧
      get_transactions store uid skip limit
        = .ok (((full.drop skip.toNat).map toResponse).take limit.toNat) ∧
      ∀ l, get_transactions store uid skip limit = .ok l → l.length ≤ limit.toNat := by
  have hs : ¬ skip < 0 := not_lt.mpr hskip
  have hl0 : (limit == 0) = false := beq_eq_false_iff_ne.mpr (ne_of_gt hlimit)
  have hnat : limit.natAbs = limit.toNat := by omega
  have heq : get_transactions store uid skip limit
      = .ok ((((sortByDateDesc (store.filter (txnMatches uid))).drop skip.toNat).map
          toResponse).take limit.toNat) := by
    simp only [get_transactions, hs, if_false, applyLimit, hl0, hnat,
      Bool.false_eq_true]
  refine ⟨sortByDateDesc (store.filter (txnMatches uid)), sortByDateDesc_perm _,
    sortByDateDesc_sorted _, heq, ?_⟩
  intro l hok
  rw [heq] at hok
  injection hok with hok
  rw [← hok]
  exact List.length_take_le _ _

/-- Witness for the amended C7: one stored transaction listed with
`skip = 0`, `limit = 10`. -/
theorem C7_amended_listing_witness :
    (0 : Int) ≤ 0 ∧ (0 : Int) < 10 ∧
    ∃ full : List TransactionInDB,
      List.Perm full ([mkTxn "t1" "u" .income .salary 5 1 none].filter (txnMatches "u")) ∧
      full.Pairwise (fun a b => b.date ≤ a.date) ∧
      get_transactions [mkTxn "t1" "u" .income .salary 5 1 none] "u" 0 10
        = .ok (((full.drop (0 : Int).toNat).map toResponse).take (10 : Int).toNat) ∧
      ∀ l, get_transactions [mkTxn "t1" "u" .income .salary 5 1 none] "u" 0 10 = .ok l →
        l.length ≤ (10 : Int).toNat :=
  ⟨le_refl 0, by decide,
    C7_amended_listing [mkTxn "t1" "u" .income .salary 5 1 none] "u" 0 10
      (by decide) (by decide)⟩

/-- C8: the register response serializes exactly the four public fields
`public_id`, `email`, `full_name`, `created_at`; every string value in it
is one of those fields, so the stored bcrypt hash (whenever it differs
from those public strings, as a bcrypt hash always does) never appears;
and the transaction and balance views contain no password-derived field
at all. -/
theorem C8_no_password_serialized (users : List UserInDB)
    (email fn pw salt pid : String) (now : Int) (resp : UserResponse)
    (users2 : List UserInDB)
    (hreg : register users email fn pw salt pid now = (.created resp, users2)) :
    (serializeUserResponse resp).map Prod.fst
        = ["public_id", "email", "full_name", "created_at"] ∧
    (∀ v : String, JsonVal.s v ∈ (serializeUserResponse resp).map Prod.snd →
        v = resp.public_id ∨ v = resp.email ∨ v = resp.full_name) ∧
    (get_password_hash salt pw ≠ pid → get_password_hash salt pw ≠ normalizeEmail email →
        get_password_hash salt pw ≠ fn →
        JsonVal.s (get_password_hash salt pw) ∉ (serializeUserResponse resp).map Prod.snd) ∧
    (∀ r : TransactionResponse, (serializeTransactionResponse r).map Prod.fst
        = ["public_id", "type", "category", "amount", "description", "date", "created_at"]) ∧
    (∀ b : BalanceResponse, (serializeBalanceResponse b).map Prod.fst
        = ["total_income", "total_expenses", "current_balance", "transaction_count"]) := by
  have hresp : resp = ⟨pid, normalizeEmail email, fn, now⟩ := by
    by_cases hval : (validPassword pw && validFullName fn) = true
    · cases hfind : users.find?
          (fun u => u.email == normalizeEmail email && u.deleted_at == none) with
      | some u => simp [register, hval, hfind] at hreg
      | none =>
        simp only [register, hval, if_true, hfind, Prod.mk.injEq,
          RegisterOutcome.created.injEq] at hreg
        exact hreg.1.symm
    · simp [register, hval] at hreg
  subst hresp
  refine ⟨rfl, ?_, ?_, fun r => rfl, fun b => rfl⟩
  · intro v hv
    simp only [serializeUserResponse, List.map_cons, List.map_nil, List.mem_cons,
      List.not_mem_nil, or_false, JsonVal.s.injEq, reduceCtorEq] at hv
    rcases hv with h | h | h
    · exact Or.inl h
    · exact Or.inr (Or.inl h)
    · exact Or.inr (Or.inr h)
  · intro h1 h2 h3 hmem
    simp only [serializeUserResponse, List.map_cons, List.map_nil, List.mem_cons,
      List.not_mem_nil, or_false, JsonVal.s.injEq, reduceCtorEq] at hmem
    rcases hmem with h | h | h
    · exact h1 h
    · exact h2 h
    · exact h3 h

/-- Witness for C8: a concrete successful registration; its serialized
response keys are exactly the four public fields. -/
theorem C8_no_password_serialized_witness :
    register [] "alice@example.com" "Alice" "Password1" "abcdefghijklmnopqrstuv" "pid1" 0
      = (RegisterOutcome.created (UserResponse.mk "pid1" "alice@example.com" "Alice" 0),
         [UserInDB.mk "pid1" "alice@example.com" "Alice"
           (get_password_hash "abcdefghijklmnopqrstuv" "Password1") 0 0 none true]) ∧
    (serializeUserResponse ⟨"pid1", "alice@example.com", "Alice", 0⟩).map Prod.fst
      = ["public_id", "email", "full_name", "created_at"] :=
  ⟨by decide,
    (C8_no_password_serialized [] "alice@example.com" "Alice" "Password1"
      "abcdefghijklmnopqrstuv" "pid1" 0 (UserResponse.mk "pid1" "alice@example.com" "Alice" 0)
      [UserInDB.mk "pid1" "alice@example.com" "Alice"
        (get_password_hash "abcdefghijklmnopqrstuv" "Password1") 0 0 none true]
      (by decide)).1⟩

/-- C9 counterexample: the route declares `skip: int = 0, limit: int =
100` with no bounds, so out-of-range values are NOT rejected as a client
validation error: a negative skip reaches the driver and raises
(surfacing as a server error, not 422), and a negative limit is accepted
outright — the store is queried and data returned. -/
theorem C9_counterexample :
    get_transactions [mkTxn "t1" "u" .income .salary 5 1 none] "u" (-1) 100
      = .internalError ∧
    ListOutcome.internalError ≠ ListOutcome.unprocessable ∧
    get_transactions [mkTxn "t1" "u" .income .salary 5 1 none] "u" 0 (-7)
      = .ok [toResponse (mkTxn "t1" "u" .income .salary 5 1 none)] := by
  refine ⟨by decide, by decide, by decide⟩

/-- C9 (amended): `skip` and `limit` are not bounds-validated before the
store is queried: the route never produces a request-validation (422)
outcome for them; a negative `skip` is forwarded to the driver, whose
`ValueError` surfaces as a server error; and for any non-negative `skip`
the query runs against the store for every `limit`, including negative
ones. -/
theorem C9_amended_no_bounds_validation (store : List TransactionInDB) (uid : String)
    (skip limit : Int) :
    get_transactions store uid skip limit ≠ .unprocessable ∧
    (skip < 0 → get_transactions store uid skip limit = .internalError) ∧
    (0 ≤ skip → ∃ items, get_transactions store uid skip limit = .ok items ∧
        items ⊆ (sortByDateDesc (store.filter (txnMatches uid))).map toResponse) := by
  refine ⟨?_, ?_, ?_⟩
  · by_cases hs : skip < 0 <;> simp [get_transactions, hs]
  · intro hs
    simp [get_transactions, hs]
  · intro hs
    have hs' : ¬ skip < 0 := not_lt.mpr hs
    refine ⟨applyLimit limit
        (((sortByDateDesc (store.filter (txnMatches uid))).drop skip.toNat).map toResponse),
      by simp [get_transactions, hs'], ?_⟩
    intro r hr
    have h1 := applyLimit_subset _ _ hr
    exact List.map_subset toResponse (List.drop_subset _ _) h1

/-- Witness for the amended C9: a negative skip on an empty store yields
the server error, not a validation rejection. -/
theorem C9_amended_no_bounds_validation_witness :
    ((-1 : Int) < 0) ∧ get_transactions [] "u" (-1) 100 = .internalError :=
  ⟨by decide, (C9_amended_no_bounds_validation [] "u" (-1) 100).2.1 (by decide)⟩

/-- C10: a successful soft delete modifies exactly one document — the
first one matching the requested public id, the requesting owner and the
alive filter — and on it only `deleted_at` changes (set to the current
time); `updated_at`, `type`, `category`, `amount`, `description`, `date`,
`created_at`, `public_id` and `user_public_id` are untouched, the store
keeps its length, and every other position is unchanged. -/
theorem C10_delete_frame (store : List TransactionInDB) (tid uid : String) (now : Int)
    (store2 : List TransactionInDB)
    (h : delete_transaction store tid uid now = (.noContent, store2)) :
    store2.length = store.length ∧
    ∃ (i : Nat) (t : TransactionInDB),
      store[i]? = some t ∧
      t.public_id = tid ∧ t.user_public_id = uid ∧ t.deleted_at = none ∧
      store2[i]? = some { t with deleted_at := some now } ∧
      ({ t with deleted_at := some now } : TransactionInDB).public_id = t.public_id ∧
      ({ t with deleted_at := some now } : TransactionInDB).user_public_id
        = t.user_public_id ∧
      ({ t with deleted_at := some now } : TransactionInDB).type = t.type ∧
      ({ t with deleted_at := some now } : TransactionInDB).category = t.category ∧
      ({ t with deleted_at := some now } : TransactionInDB).amount = t.amount ∧
      ({ t with deleted_at := some now } : TransactionInDB).description = t.description ∧
      ({ t with deleted_at := some now } : TransactionInDB).date = t.date ∧
      ({ t with deleted_at := some now } : TransactionInDB).created_at = t.created_at ∧
      ({ t with deleted_at := some now } : TransactionInDB).updated_at = t.updated_at ∧
      ({ t with deleted_at := some now } : TransactionInDB).deleted_at = some now ∧
      (∀ j : Nat, j ≠ i → store2[j]? = store[j]?) := by
  rcases updateOne_spec
      (fun x => x.public_id == tid && x.user_public_id == uid && x.deleted_at == none)
      (fun x => { x with deleted_at := some now }) store with
    ⟨h0, _, _⟩ | ⟨h0, i, t, hget, hpt, _, hset⟩
  · exfalso
    simp [delete_transaction, h0] at h
  · have hstore2 : store2 = store.set i { t with deleted_at := some now } := by
      simp only [delete_transaction, h0, hset, Prod.mk.injEq] at h
      simpa using h.2.symm
    have hi : i < store.length := (List.getElem?_eq_some_iff.mp hget).1
    have hcond := hpt
    simp only [Bool.and_eq_true, beq_iff_eq] at hcond
    obtain ⟨⟨hc1, hc2⟩, hc3⟩ := hcond
    refine ⟨by rw [hstore2, List.length_set], i, t, hget, hc1, hc2, hc3, ?_, rfl, rfl,
      rfl, rfl, rfl, rfl, rfl, rfl, rfl, rfl, ?_⟩
    · rw [hstore2]
      exact List.getElem?_set_self (by simpa using hi)
    · intro j hj
      rw [hstore2]
      exact List.getElem?_set_ne (fun hij => hj hij.symm)

/-- Witness for C10: deleting the single stored transaction changes only
its `deleted_at` and preserves the store's length. -/
theorem C10_delete_frame_witness :
    delete_transaction [mkTxn "t1" "u" .income .salary 5 1 none] "t1" "u" 9
      = (.noContent, [mkTxn "t1" "u" .income .salary 5 1 (some 9)]) ∧
    ([mkTxn "t1" "u" .income .salary 5 1 (some 9)] : List TransactionInDB).length
      = ([mkTxn "t1" "u" .income .salary 5 1 none] : List TransactionInDB).length :=
  ⟨by decide,
    (C10_delete_frame [mkTxn "t1" "u" .income .salary 5 1 none] "t1" "u" 9
      [mkTxn "t1" "u" .income .salary 5 1 (some 9)] (by decide)).1⟩

end BudgetApp
